import Mathlib

/-!
Shallow embedding of `src/main.py` of diy-project/aws-lambda-proxy:
the CLI argument wiring (`get_args`, `build_lambda_proxy`, `main`) and the
per-connection `ProxyHandler` (`_proxy_request`, `_connect_request`),
modelled as pure functions producing traces of observable events.

The filtered header sets live in `lib/headers.py`, which is not part of the
sources here; following the spec ("a fixed set of request headers ... is
stripped", "a fixed set of response headers is stripped") they are taken as
parameters (`freq`, `fresp`) of the handler model.
-/

namespace AwsLambdaProxy

/-- Python dict assignment `d[k] = v` on an association-list model of a dict
(keys occur at most once): replace the value at the first occurrence of the
key if present, otherwise append the binding. -/
def dictInsert : List (String × String) → String → String →
    List (String × String)
  | [], k, v => [(k, v)]
  | p :: d, k, v => if p.1 = k then (k, v) :: d else p :: dictInsert d k v

/-- Python dict lookup `d[k]` on the association-list model. -/
def dictLookup (d : List (String × String)) (k : String) : Option String :=
  (d.find? (fun p => p.1 = k)).map (fun p => p.2)

/-- Observable actions of `ProxyHandler`, in the order the handler performs
them: stats recording, the backend call (`proxy.request`), wire output
(`send_response` / `send_header` / `end_headers` / body write), the tunnel
calls (`proxy.connect` / `proxy.stream`), and the body write done inside
`BaseHTTPRequestHandler.send_error`. -/
inductive Event where
  | recordBytesUp (n : Nat)
  | backendRequest (method url : String) (headers : List (String × String))
      (body : Option String)
  | sendResponse (code : Nat)
  | sendHeader (name value : String)
  | endHeaders
  | writeBody (content : String)
  | recordBytesDown (n : Nat)
  | connectCall (host port : List Char)
  | streamCall
  | writeErrorBody (code : Nat)
  deriving DecidableEq, Repr

/-- The headers appearing in `sendHeader` events of a trace. -/
def sentHeaders (t : List Event) : List (String × String) :=
  t.filterMap (fun e =>
    match e with
    | Event.sendHeader n v => some (n, v)
    | _ => none)

/-- Global constant `OVERRIDE_USER_AGENT = False` (main.py line 34). -/
def OVERRIDE_USER_AGENT : Bool := false

/-- The backend response object: `statusCode`, `headers`, `content`
(main.py reads these three attributes of the result of `proxy.request`). -/
structure BackendResponse where
  statusCode : Nat
  headers : List (String × String)
  content : String
  deriving DecidableEq, Repr

/-- The header dict built by `_proxy_request` lines 187-199: start from an
empty dict, copy every client header whose name is not in the filtered
request set, then set the `Connection` header to `close`. -/
def forwardHeaders (freq : List String)
    (clientHeaders : List (String × String)) : List (String × String) :=
  let base := clientHeaders.foldl
    (fun d p => if p.1 ∈ freq then d else dictInsert d p.1 p.2) []
  dictInsert base "Connection" "close"

/-- The header contribution to `approxRequestLen` (line 195): every client
header adds `len(header) + len(value) + 4`, filtered or not, because the
`+=` precedes the filter check. -/
def approxRequestLenHeaders (clientHeaders : List (String × String)) : Nat :=
  clientHeaders.foldl (fun acc p => acc + p.1.length + p.2.length + 4) 0

/-- The request body read at lines 203-208: `self.rfile.read()` for every
method except GET, `None` for GET (`method` is `self.command.upper()`). -/
def requestBodyFor (command rfileContent : String) : Option String :=
  if command.toUpper ≠ "GET" then some rfileContent else none

/-- The `send_header` events of the response-header loop (lines 219-223):
headers in the filtered response set are skipped, the rest forwarded in
order. -/
def respHeaderEvents (fresp : List String)
    (respHeaders : List (String × String)) : List Event :=
  respHeaders.foldl
    (fun acc p =>
      if p.1 ∈ fresp then acc
      else acc ++ [Event.sendHeader p.1 p.2]) []

/-- The value `approxResponseLen` as computed by lines 216-222: it starts at
20 and the loop ASSIGNS (not accumulates) `len(header) + len(value) + 4` for
each non-filtered header, so only the last non-filtered header survives. -/
def approxResponseLen (fresp : List String)
    (respHeaders : List (String × String)) : Nat :=
  respHeaders.foldl
    (fun acc p =>
      if p.1 ∈ fresp then acc
      else p.1.length + p.2.length + 4) 20

/-- The last response header that is not filtered, if any. -/
def lastNonFiltered (fresp : List String)
    (respHeaders : List (String × String)) : Option (String × String) :=
  (respHeaders.filter (fun p => p.1 ∉ fresp)).getLast?

/-- Trace of `ProxyHandler._proxy_request` (lines 181-229), for a given
command, path (`url`), `version_string()`, client headers, client body
bytes, and backend response.  `uaValue` is the value `get_user_agent()`
would return; the branch using it is dead because `OVERRIDE_USER_AGENT` is
`false`. -/
def proxyRequestTrace (freq fresp : List String)
    (command url version : String)
    (clientHeaders : List (String × String)) (rfileContent : String)
    (uaValue : String) (response : BackendResponse) : List Event :=
  let method := command.toUpper
  let headers0 := forwardHeaders freq clientHeaders
  let headers :=
    if OVERRIDE_USER_AGENT then dictInsert headers0 "User-Agent" uaValue
    else headers0
  let requestBody := requestBodyFor command rfileContent
  let approxRequestLen :=
    2 + url.length + method.length + version.length
      + approxRequestLenHeaders clientHeaders
      + (match requestBody with
         | some b => b.length
         | none => 0)
  Event.recordBytesUp approxRequestLen
    :: Event.backendRequest method url headers requestBody
    :: Event.sendResponse response.statusCode
    :: (respHeaderEvents fresp response.headers
        ++ [Event.sendHeader "Proxy-Connection" "close",
            Event.endHeaders,
            Event.writeBody response.content,
            Event.recordBytesDown
              (approxResponseLen fresp response.headers
                + response.content.length)])

/-- Python 2 `str.split(sep)` for a one-character separator, on the
character-list view of the string (splits at every occurrence, keeps empty
pieces). -/
def splitOnChar (c : Char) : List Char → List (List Char)
  | [] => [[]]
  | x :: xs =>
    if x = c then [] :: splitOnChar c xs
    else
      match splitOnChar c xs with
      | [] => [[x]]
      | y :: ys => (x :: y) :: ys

/-- The tuple unpacking of the colon-split of the path (line 234): it
succeeds exactly when the split yields two pieces, and raises `ValueError`
(modelled as `none`) otherwise. -/
def splitHostPort (path : List Char) : Option (List Char × List Char) :=
  match splitOnChar ':' path with
  | [h, p] => some (h, p)
  | _ => none

/-- Python 2 `BaseHTTPRequestHandler.send_error(code)`: sends the status
line, a `Content-Type` header, a `Connection: close` header, ends headers,
and writes the error body.  It sends no `Proxy-Connection` header. -/
def sendErrorEvents (code : Nat) (errorContentType : String) : List Event :=
  [Event.sendResponse code,
   Event.sendHeader "Content-Type" errorContentType,
   Event.sendHeader "Connection" "close",
   Event.endHeaders,
   Event.writeErrorBody code]

/-- Trace of `ProxyHandler._connect_request` (lines 231-254).
`connectRaises` tells whether `proxy.connect(host, port)` raises.  The
result is `none` when the `split(':')` unpacking raises before anything is
sent; a successful CONNECT ends with the `proxy.stream` call. -/
def connectRequestTrace (path : List Char) (connectRaises : Bool)
    (version errorContentType : String) : Option (List Event) :=
  match splitHostPort path with
  | none => none
  | some (host, port) =>
    if connectRaises then
      some (Event.connectCall host port
        :: (sendErrorEvents 520 errorContentType ++ [Event.endHeaders]))
    else
      some [Event.connectCall host port,
            Event.sendResponse 200,
            Event.sendHeader "Proxy-Agent" version,
            Event.sendHeader "Proxy-Connection" "close",
            Event.endHeaders,
            Event.streamCall]

/-- The parsed CLI arguments (`get_args`, lines 37-70). -/
structure Args where
  port : Nat
  host : String
  runLocal : Bool
  functions : List String
  lambdaType : String
  largeTransport : String
  s3Bucket : Option String
  maxLambdas : Nat
  enableMitm : Bool
  verbose : Bool
  deriving DecidableEq, Repr

/-- The raw option occurrences on the command line that `get_args` consumes.
`functions` is the list of `--function` values in order; `lambdaType` and
`largeTransport` are restricted by `choices` in the parser. -/
structure CliOpts where
  port : Option Nat
  host : Option String
  runLocal : Bool
  functions : List String
  lambdaType : Option String
  largeTransport : Option String
  s3Bucket : Option String
  maxLambdas : Option Nat
  enableMitm : Bool
  verbose : Bool
  deriving DecidableEq, Repr

/-- Model of `get_args` (lines 37-70).  The `--function` option uses the
argparse append action with a non-empty list default, so argparse appends
each occurrence to the default one-element list: the parsed list always
keeps the default element `simple-http-proxy` at the front. -/
def get_args (c : CliOpts) : Args :=
  { port := c.port.getD 1080
    host := c.host.getD "localhost"
    runLocal := c.runLocal
    functions := "simple-http-proxy" :: c.functions
    lambdaType := c.lambdaType.getD "hybrid"
    largeTransport := c.largeTransport.getD "sqs"
    s3Bucket := c.s3Bucket
    maxLambdas := c.maxLambdas.getD 10
    enableMitm := c.enableMitm
    verbose := c.verbose }

/-- The constructor call `build_lambda_proxy` makes, with the keyword
arguments it passes that come from the CLI (the shared `stats` recorder is
passed to every constructor and carries no CLI information, so it is
omitted). -/
inductive LambdaProxyCtor where
  | shortLived (functions : List String) (maxParallelRequests : Nat)
      (s3Bucket : Option String)
  | longLived (functions : List String) (maxLambdas : Nat)
      (s3Bucket : Option String) (verbose : Bool)
  | hybrid (functions : List String) (maxLambdas : Nat)
      (s3Bucket : Option String) (verbose : Bool)
  deriving DecidableEq, Repr

/-- The `s3Bucket` keyword argument of a lambda-proxy constructor call. -/
def LambdaProxyCtor.s3BucketArg : LambdaProxyCtor → Option String
  | LambdaProxyCtor.shortLived _ _ b => b
  | LambdaProxyCtor.longLived _ _ b _ => b
  | LambdaProxyCtor.hybrid _ _ b _ => b

/-- Model of `build_lambda_proxy` (lines 92-139): exits with `sys.exit(-1)` when the
function list is empty, otherwise constructs the lambda proxy selected by
`lambdaType` (anything other than `short` or `long` falls to the hybrid
branch). -/
def build_lambda_proxy (args : Args) : Except Int LambdaProxyCtor :=
  if args.functions = [] then Except.error (-1)
  else if args.lambdaType = "short" then
    Except.ok (LambdaProxyCtor.shortLived args.functions args.maxLambdas
      args.s3Bucket)
  else if args.lambdaType = "long" then
    Except.ok (LambdaProxyCtor.longLived args.functions args.maxLambdas
      args.s3Bucket args.verbose)
  else
    Except.ok (LambdaProxyCtor.hybrid args.functions args.maxLambdas
      args.s3Bucket args.verbose)

/-- Outcome of `main` (lines 272-286) up to the point the listener would
start: either the process exited with a code, or the `ThreadedHTTPServer`
is constructed on `(host, port)` and `serve_forever` begins. -/
inductive StartupResult where
  | exited (code : Int)
  | serving (host : String) (port : Nat)
  deriving DecidableEq, Repr

/-- Model of `main` (lines 272-286): local mode builds the local proxy and serves;
otherwise `build_lambda_proxy` runs first, and only if it returns (rather
than exiting) is the server constructed and started. -/
def mainStartup (args : Args) : StartupResult :=
  if args.runLocal then StartupResult.serving args.host args.port
  else
    match build_lambda_proxy args with
    | Except.error code => StartupResult.exited code
    | Except.ok _ => StartupResult.serving args.host args.port

/-! Helper lemmas. -/

theorem dictLookup_dictInsert_self (d : List (String × String))
    (k v : String) : dictLookup (dictInsert d k v) k = some v := by
  induction d with
  | nil => simp [dictInsert, dictLookup]
  | cons p d ih =>
    by_cases hp : p.1 = k
    · simp [dictInsert, hp, dictLookup]
    · simp only [dictInsert, hp, if_false]
      simpa [dictLookup, List.find?, hp] using ih

theorem dictLookup_dictInsert_ne (d : List (String × String))
    (k v k2 : String) (h : k2 ≠ k) :
    dictLookup (dictInsert d k v) k2 = dictLookup d k2 := by
  have hk : decide (k = k2) = false := decide_eq_false (fun hh => h hh.symm)
  induction d with
  | nil => simp [dictInsert, dictLookup, List.find?, hk]
  | cons p d ih =>
    by_cases hp : p.1 = k
    · have hpk2 : decide (p.1 = k2) = false :=
        decide_eq_false (fun hh => h (hh.symm.trans hp))
      simp [dictInsert, hp, dictLookup, List.find?, hk, hpk2]
    · simp only [dictInsert, hp, if_false]
      by_cases hp2 : p.1 = k2
      · simp [dictLookup, List.find?, hp2]
      · simpa [dictLookup, List.find?, hp2] using ih

/-- The dict-building fold of the request-header loop, characterized on
lookups when the client header names are distinct. -/
theorem dictBuild_lookup (freq : List String) (name : String) :
    ∀ (hs acc : List (String × String)),
      (hs.map Prod.fst).Nodup →
      dictLookup (hs.foldl
          (fun d p => if p.1 ∈ freq then d else dictInsert d p.1 p.2) acc)
          name =
        match hs.find? (fun p => p.1 = name) with
        | some p => if name ∈ freq then dictLookup acc name else some p.2
        | none => dictLookup acc name := by
  intro hs
  induction hs with
  | nil => intro acc _; simp
  | cons p tl ih =>
    intro acc hnd
    simp only [List.map_cons, List.nodup_cons] at hnd
    obtain ⟨hnotin, hndtl⟩ := hnd
    by_cases hp : p.1 = name
    · have hnone : tl.find? (fun q => q.1 = name) = none := by
        rw [List.find?_eq_none]
        intro q hq
        simp only [decide_eq_true_eq]
        intro hqname
        exact hnotin (hp ▸ hqname ▸ List.mem_map_of_mem Prod.fst hq)
      rw [List.foldl_cons, ih _ hndtl, hnone]
      by_cases hf : p.1 ∈ freq
      · simp [List.find?, hp, hf, hp ▸ hf]
      · have hf2 : name ∉ freq := hp ▸ hf
        simp [List.find?, hp, hf, hf2, hp ▸ dictLookup_dictInsert_self acc p.1 p.2]
    · have hstep : dictLookup
          ((fun d (q : String × String) =>
            if q.1 ∈ freq then d else dictInsert d q.1 q.2) acc p) name =
          dictLookup acc name := by
        by_cases hf : p.1 ∈ freq
        · simp [hf]
        · simp [hf, dictLookup_dictInsert_ne acc p.1 p.2 name
            (fun hh => hp hh.symm)]
      rw [List.foldl_cons, ih _ hndtl, hstep]
      simp [List.find?, hp]

/-- Lookup characterization of the forwarded header dict: `Connection` is
always `close`, filtered names are absent, every other name keeps the client
value. -/
theorem forwardHeaders_lookup (freq : List String)
    (client : List (String × String)) (name : String)
    (hnd : (client.map Prod.fst).Nodup) :
    dictLookup (forwardHeaders freq client) name =
      if name = "Connection" then some "close"
      else if name ∈ freq then none
      else dictLookup client name := by
  unfold forwardHeaders
  by_cases hc : name = "Connection"
  · simp [hc, dictLookup_dictInsert_self]
  · rw [dictLookup_dictInsert_ne _ _ _ _ hc,
      dictBuild_lookup freq name client [] hnd]
    simp only [hc, if_false]
    cases hfind : client.find? (fun p => p.1 = name) with
    | none => simp [dictLookup, hfind]
    | some p =>
      by_cases hf : name ∈ freq
      · simp [hf, dictLookup]
      · simp [hf, dictLookup, hfind]

theorem respHeaderEvents_eq (fresp : List String)
    (hs : List (String × String)) :
    respHeaderEvents fresp hs =
      (hs.filter (fun p => p.1 ∉ fresp)).map
        (fun p => Event.sendHeader p.1 p.2) := by
  suffices h : ∀ acc, hs.foldl
      (fun acc p =>
        if p.1 ∈ fresp then acc else acc ++ [Event.sendHeader p.1 p.2]) acc =
      acc ++ (hs.filter (fun p => p.1 ∉ fresp)).map
        (fun p => Event.sendHeader p.1 p.2) by
    simpa [respHeaderEvents] using h []
  induction hs with
  | nil => intro acc; simp
  | cons p tl ih =>
    intro acc
    by_cases hf : p.1 ∈ fresp
    · simp [hf, ih]
    · simp [hf, ih, List.filter_cons]

theorem respHeaderEvents_all_sendHeader (fresp : List String)
    (hs : List (String × String)) :
    ∀ e ∈ respHeaderEvents fresp hs, ∃ n v, e = Event.sendHeader n v := by
  intro e he
  rw [respHeaderEvents_eq] at he
  obtain ⟨p, _, rfl⟩ := List.mem_map.mp he
  exact ⟨p.1, p.2, rfl⟩

/-- The response-length fold keeps its initial value exactly when no header
survives the filter, and otherwise ends at the contribution of the last
surviving header. -/
theorem approxResponseLen_eq_last (fresp : List String)
    (hs : List (String × String)) :
    approxResponseLen fresp hs =
      match lastNonFiltered fresp hs with
      | some q => q.1.length + q.2.length + 4
      | none => 20 := by
  suffices h : ∀ acc, hs.foldl
      (fun acc p =>
        if p.1 ∈ fresp then acc else p.1.length + p.2.length + 4) acc =
      match (hs.filter (fun p => p.1 ∉ fresp)).getLast? with
      | some q => q.1.length + q.2.length + 4
      | none => acc by
    simpa [approxResponseLen, lastNonFiltered] using h 20
  induction hs with
  | nil => intro acc; simp
  | cons p tl ih =>
    intro acc
    by_cases hf : p.1 ∈ fresp
    · simp [hf, ih, List.filter_cons]
    · rw [List.foldl_cons, ih]
      have hfilter : (p :: tl).filter (fun q => q.1 ∉ fresp) =
          p :: tl.filter (fun q => q.1 ∉ fresp) := by
        simp [List.filter_cons, hf]
      rw [hfilter]
      cases htl : (tl.filter (fun q => q.1 ∉ fresp)) with
      | nil => simp [hf]
      | cons q rest =>
        rw [List.getLast?_cons_cons]
        obtain ⟨z, hz⟩ := Option.isSome_iff_exists.mp
          (List.getLast?_isSome.mpr (List.cons_ne_nil q rest))
        rw [hz]

theorem splitOnChar_length (c : Char) (l : List Char) :
    (splitOnChar c l).length = l.count c + 1 := by
  induction l with
  | nil => simp [splitOnChar]
  | cons x xs ih =>
    by_cases hx : x = c
    · simp [splitOnChar, hx, List.count_cons, ih]
    · simp only [splitOnChar, hx, if_false]
      cases hs : splitOnChar c xs with
      | nil => rw [hs] at ih; simp at ih
      | cons y ys =>
        rw [hs] at ih
        simp only [List.length_cons] at ih ⊢
        simp [List.count_cons, hx, ih]

/-! Claim theorems. -/

/-- C6: when the proxy is not running in local mode and the configured
remote function list is empty, startup exits with the non-zero code -1 and
the listener is never constructed or started. -/
theorem C6_fatal_startup_on_empty_functions (args : Args)
    (hlocal : args.runLocal = false) (hfn : args.functions = []) :
    mainStartup args = StartupResult.exited (-1) ∧ ((-1 : Int) ≠ 0) ∧
      ∀ h p, mainStartup args ≠ StartupResult.serving h p := by
  have hmain : mainStartup args = StartupResult.exited (-1) := by
    simp [mainStartup, hlocal, build_lambda_proxy, hfn]
  exact ⟨hmain, by decide,
    fun h p hserv => by rw [hmain] at hserv; cases hserv⟩

/-- Witness for C6 at a concrete argument record. -/
theorem C6_fatal_startup_on_empty_functions_witness :
    mainStartup
        { port := 1080, host := "localhost", runLocal := false,
          functions := [], lambdaType := "hybrid", largeTransport := "sqs",
          s3Bucket := none, maxLambdas := 10, enableMitm := false,
          verbose := false } =
      StartupResult.exited (-1) :=
  (C6_fatal_startup_on_empty_functions _ rfl rfl).1

/-- C9: under the CLI parser the parsed function list always keeps the
default element at the front, hence is never empty, and `build_lambda_proxy`
never reaches its fatal-exit branch on any parsed argument vector. -/
theorem C9_exit_branch_unreachable (c : CliOpts) :
    (get_args c).functions ≠ [] ∧
      ∃ ctor, build_lambda_proxy (get_args c) = Except.ok ctor := by
  have hne : (get_args c).functions ≠ [] := by simp [get_args]
  refine ⟨hne, ?_⟩
  unfold build_lambda_proxy
  rw [if_neg hne]
  split
  · exact ⟨_, rfl⟩
  · split
    · exact ⟨_, rfl⟩
    · exact ⟨_, rfl⟩

/-- C5 counterexample: at a concrete argument vector with an s3 bucket set,
`build_lambda_proxy` passes the bucket into the ShortLivedLambdaProxy
constructor call — and the construction differs from the same arguments
without a bucket — so the s3 bucket option IS passed into the lambda-proxy
constructors, refuting the claim. -/
theorem C5_counterexample :
    build_lambda_proxy
        { port := 1080, host := "localhost", runLocal := false,
          functions := ["simple-http-proxy"], lambdaType := "short",
          largeTransport := "sqs", s3Bucket := some "my-bucket",
          maxLambdas := 10, enableMitm := false, verbose := false } =
      Except.ok (LambdaProxyCtor.shortLived ["simple-http-proxy"] 10
        (some "my-bucket")) ∧
    (LambdaProxyCtor.shortLived ["simple-http-proxy"] 10
        (some "my-bucket")).s3BucketArg = some "my-bucket" ∧
    build_lambda_proxy
        { port := 1080, host := "localhost", runLocal := false,
          functions := ["simple-http-proxy"], lambdaType := "short",
          largeTransport := "sqs", s3Bucket := some "my-bucket",
          maxLambdas := 10, enableMitm := false, verbose := false } ≠
      build_lambda_proxy
        { port := 1080, host := "localhost", runLocal := false,
          functions := ["simple-http-proxy"], lambdaType := "short",
          largeTransport := "sqs", s3Bucket := none,
          maxLambdas := 10, enableMitm := false, verbose := false } := by
  refine ⟨by simp [build_lambda_proxy], rfl, by simp [build_lambda_proxy]⟩

/-- C5 amended: the large-payload transport choice is not passed into any
lambda-proxy constructor (the built proxy does not depend on it), but the
s3 bucket option is passed into every lambda-proxy constructor as its
s3Bucket argument. -/
theorem C5_amended_wiring (args : Args) (t : String)
    (hne : args.functions ≠ []) :
    build_lambda_proxy { args with largeTransport := t } =
      build_lambda_proxy args ∧
    ∀ ctor, build_lambda_proxy args = Except.ok ctor →
      ctor.s3BucketArg = args.s3Bucket := by
  constructor
  · simp [build_lambda_proxy]
  · intro ctor hctor
    unfold build_lambda_proxy at hctor
    rw [if_neg hne] at hctor
    split at hctor
    · cases hctor; rfl
    · split at hctor
      · cases hctor; rfl
      · cases hctor; rfl

/-- Witness for C5 amended at a concrete argument record. -/
theorem C5_amended_wiring_witness :
    build_lambda_proxy
        { port := 1080, host := "localhost", runLocal := false,
          functions := ["f1"], lambdaType := "long",
          largeTransport := "s3", s3Bucket := some "b",
          maxLambdas := 4, enableMitm := false, verbose := true } =
      build_lambda_proxy
        { port := 1080, host := "localhost", runLocal := false,
          functions := ["f1"], lambdaType := "long",
          largeTransport := "sqs", s3Bucket := some "b",
          maxLambdas := 4, enableMitm := false, verbose := true } :=
  (C5_amended_wiring
    { port := 1080, host := "localhost", runLocal := false,
      functions := ["f1"], lambdaType := "long",
      largeTransport := "sqs", s3Bucket := some "b",
      maxLambdas := 4, enableMitm := false, verbose := true } "s3"
    (by decide)).1

/-- C10: a CONNECT whose path does not contain exactly one colon makes the
tuple unpacking of the colon-split raise before the connect attempt, so the
handler sends nothing at all — neither the 520 error nor a 200 response. -/
theorem C10_connect_path_split_raises (path : List Char)
    (connectRaises : Bool) (version errorContentType : String)
    (hcount : path.count ':' ≠ 1) :
    connectRequestTrace path connectRaises version errorContentType =
      none := by
  have hsplit : splitHostPort path = none := by
    unfold splitHostPort
    have hlen := splitOnChar_length ':' path
    cases hs : splitOnChar ':' path with
    | nil => rfl
    | cons a t =>
      cases t with
      | nil => rfl
      | cons b t2 =>
        cases t2 with
        | nil =>
          rw [hs] at hlen
          simp only [List.length_cons, List.length_nil] at hlen
          omega
        | cons c3 t3 => rfl
  unfold connectRequestTrace
  rw [hsplit]

/-- Witness for C10 on a bare-hostname CONNECT target. -/
theorem C10_connect_path_split_raises_witness :
    connectRequestTrace ("example.com".toList) false "ProxyServer/1.0"
        "text/html" = none ∧
      ("example.com".toList).count ':' ≠ 1 :=
  ⟨C10_connect_path_split_raises ("example.com".toList) false
    "ProxyServer/1.0" "text/html" (by decide), by decide⟩

/-- C3: when the connect call of a CONNECT request raises, the handler
sends the 520 gateway error, never calls the stream operation, and never
sends a 200 Connection Established response. -/
theorem C3_connect_failure_no_tunnel (path hst prt : List Char)
    (version errorContentType : String)
    (hsplit : splitHostPort path = some (hst, prt)) :
    connectRequestTrace path true version errorContentType =
      some (Event.connectCall hst prt ::
        (sendErrorEvents 520 errorContentType ++ [Event.endHeaders])) ∧
    Event.sendResponse 520 ∈
      Event.connectCall hst prt ::
        (sendErrorEvents 520 errorContentType ++ [Event.endHeaders]) ∧
    Event.streamCall ∉
      Event.connectCall hst prt ::
        (sendErrorEvents 520 errorContentType ++ [Event.endHeaders]) ∧
    Event.sendResponse 200 ∉
      Event.connectCall hst prt ::
        (sendErrorEvents 520 errorContentType ++ [Event.endHeaders]) := by
  refine ⟨by simp [connectRequestTrace, hsplit], ?_, ?_, ?_⟩
  · simp [sendErrorEvents]
  · simp [sendErrorEvents]
  · simp [sendErrorEvents]

/-- Witness for C3 on a concrete CONNECT target. -/
theorem C3_connect_failure_no_tunnel_witness :
    connectRequestTrace ("example.com:443".toList) true "ProxyServer/1.0"
        "text/html" =
      some (Event.connectCall ("example.com".toList) ("443".toList) ::
        (sendErrorEvents 520 "text/html" ++ [Event.endHeaders])) :=
  (C3_connect_failure_no_tunnel ("example.com:443".toList)
    ("example.com".toList) ("443".toList) "ProxyServer/1.0" "text/html"
    (by decide)).1

/-- C1 counterexample: for a failing CONNECT the handler replies through
send_error(520), whose headers are Content-Type and Connection: close — the
error response carries no Proxy-Connection header, refuting the claim that
every response the proxy sends includes Proxy-Connection: close. -/
theorem C1_counterexample :
    connectRequestTrace ("example.com:443".toList) true "ProxyServer/1.0"
        "text/html" =
      some (Event.connectCall ("example.com".toList) ("443".toList) ::
        (sendErrorEvents 520 "text/html" ++ [Event.endHeaders])) ∧
    ("Proxy-Connection", "close") ∉
      sentHeaders (Event.connectCall ("example.com".toList) ("443".toList) ::
        (sendErrorEvents 520 "text/html" ++ [Event.endHeaders])) ∧
    "Proxy-Connection" ∉
      (sentHeaders (Event.connectCall ("example.com".toList)
        ("443".toList) ::
        (sendErrorEvents 520 "text/html" ++ [Event.endHeaders]))).map
        Prod.fst := by
  refine ⟨by decide, by decide, by decide⟩

/-- C1 amended: every response to a proxied plain-HTTP request and every
successful CONNECT response includes Proxy-Connection: close; the error
response sent when the tunnel connection fails does not — it carries the
Connection: close header from send_error instead. -/
theorem C1_amended_proxy_connection (freq fresp : List String)
    (command url version : String) (clientHeaders : List (String × String))
    (rfileContent uaValue : String) (response : BackendResponse)
    (path hst prt : List Char) (errorContentType : String)
    (hsplit : splitHostPort path = some (hst, prt)) :
    ("Proxy-Connection", "close") ∈
      sentHeaders (proxyRequestTrace freq fresp command url version
        clientHeaders rfileContent uaValue response) ∧
    (∀ t, connectRequestTrace path false version errorContentType = some t →
      ("Proxy-Connection", "close") ∈ sentHeaders t) ∧
    (∀ t, connectRequestTrace path true version errorContentType = some t →
      ("Proxy-Connection", "close") ∉ sentHeaders t ∧
      ("Connection", "close") ∈ sentHeaders t) := by
  refine ⟨?_, ?_, ?_⟩
  · simp [proxyRequestTrace, OVERRIDE_USER_AGENT, sentHeaders]
  · intro t ht
    simp only [connectRequestTrace, hsplit, if_false, Bool.false_eq_true,
      if_true, Option.some.injEq] at ht
    subst ht
    simp [sentHeaders]
  · intro t ht
    simp only [connectRequestTrace, hsplit, if_true, Option.some.injEq] at ht
    subst ht
    constructor
    · simp [sentHeaders, sendErrorEvents]
    · simp [sentHeaders, sendErrorEvents]

/-- Witness for C1 amended at concrete inputs. -/
theorem C1_amended_proxy_connection_witness :
    ("Proxy-Connection", "close") ∈
      sentHeaders (proxyRequestTrace [] [] "GET" "http://example.com/"
        "ProxyServer/1.0" [] "" "ua"
        { statusCode := 200, headers := [], content := "" }) :=
  (C1_amended_proxy_connection [] [] "GET" "http://example.com/"
    "ProxyServer/1.0" [] "" "ua"
    { statusCode := 200, headers := [], content := "" }
    ("example.com:443".toList) ("example.com".toList) ("443".toList)
    "text/html" (by decide)).1

/-- C2: the header map handed to the backend equals the client headers with
every filtered request name removed and Connection: close added (the only
forbidden header the handler re-injects), and the response-header loop
omits every filtered response header from the headers sent back to the
client. -/
theorem C2_header_filtering (freq fresp : List String)
    (command url version : String) (clientHeaders : List (String × String))
    (rfileContent uaValue : String) (response : BackendResponse)
    (hnd : (clientHeaders.map Prod.fst).Nodup) :
    ((proxyRequestTrace freq fresp command url version clientHeaders
        rfileContent uaValue response).get? 1 =
      some (Event.backendRequest command.toUpper url
        (forwardHeaders freq clientHeaders)
        (requestBodyFor command rfileContent))) ∧
    (∀ name, dictLookup (forwardHeaders freq clientHeaders) name =
      if name = "Connection" then some "close"
      else if name ∈ freq then none
      else dictLookup clientHeaders name) ∧
    (respHeaderEvents fresp response.headers =
      (response.headers.filter (fun q => q.1 ∉ fresp)).map
        (fun q => Event.sendHeader q.1 q.2)) ∧
    (∀ n ∈ fresp, ∀ v, Event.sendHeader n v ∉
      respHeaderEvents fresp response.headers) := by
  refine ⟨by simp [proxyRequestTrace, OVERRIDE_USER_AGENT],
    fun name => forwardHeaders_lookup freq clientHeaders name hnd,
    respHeaderEvents_eq fresp response.headers, ?_⟩
  intro n hn v hmem
  rw [respHeaderEvents_eq] at hmem
  obtain ⟨q, hq, heq⟩ := List.mem_map.mp hmem
  injection heq with h1 h2
  have hq2 : q.1 ∉ fresp := by
    have := (List.mem_filter.mp hq).2
    simpa using this
  exact hq2 (h1 ▸ hn)

/-- Witness for C2 at concrete header lists. -/
theorem C2_header_filtering_witness :
    dictLookup (forwardHeaders ["Proxy-Connection"]
        [("Host", "example.com"), ("Proxy-Connection", "keep-alive")])
      "Proxy-Connection" = none ∧
    dictLookup (forwardHeaders ["Proxy-Connection"]
        [("Host", "example.com"), ("Proxy-Connection", "keep-alive")])
      "Connection" = some "close" ∧
    dictLookup (forwardHeaders ["Proxy-Connection"]
        [("Host", "example.com"), ("Proxy-Connection", "keep-alive")])
      "Host" = some "example.com" := by
  have h := C2_header_filtering ["Proxy-Connection"] [] "GET" "u" "v"
    [("Host", "example.com"), ("Proxy-Connection", "keep-alive")] "" "ua"
    { statusCode := 200, headers := [], content := "" } (by decide)
  refine ⟨?_, ?_, ?_⟩
  · exact (h.2.1 "Proxy-Connection").trans (by simp)
  · exact (h.2.1 "Connection").trans (by simp)
  · exact (h.2.1 "Host").trans (by simp [dictLookup, List.find?])

/-- C4: in the proxied-request trace, bytes-up is recorded strictly before
the backend request is dispatched (they are the first two events), and
bytes-down is recorded strictly after the response body is written (they
are the last two events); no other event of these four kinds occurs in
between. -/
theorem C4_stats_ordering (freq fresp : List String)
    (command url version : String) (clientHeaders : List (String × String))
    (rfileContent uaValue : String) (response : BackendResponse) :
    ∃ mid,
      proxyRequestTrace freq fresp command url version clientHeaders
          rfileContent uaValue response =
        Event.recordBytesUp (2 + url.length + command.toUpper.length +
            version.length + approxRequestLenHeaders clientHeaders +
            (match requestBodyFor command rfileContent with
             | some b => b.length
             | none => 0)) ::
          Event.backendRequest command.toUpper url
            (forwardHeaders freq clientHeaders)
            (requestBodyFor command rfileContent) ::
          (mid ++ [Event.writeBody response.content,
            Event.recordBytesDown
              (approxResponseLen fresp response.headers +
                response.content.length)]) ∧
      ∀ e ∈ mid, (∀ n, e ≠ Event.recordBytesUp n) ∧
        (∀ m u hs b, e ≠ Event.backendRequest m u hs b) ∧
        (∀ c, e ≠ Event.writeBody c) ∧
        (∀ n, e ≠ Event.recordBytesDown n) := by
  refine ⟨Event.sendResponse response.statusCode ::
    (respHeaderEvents fresp response.headers ++
      [Event.sendHeader "Proxy-Connection" "close", Event.endHeaders]),
    ?_, ?_⟩
  · simp [proxyRequestTrace, OVERRIDE_USER_AGENT]
  · intro e he
    simp only [List.mem_cons, List.mem_append] at he
    rcases he with rfl | he | rfl | rfl | hfalse
    · simp
    · obtain ⟨n0, v0, rfl⟩ :=
        respHeaderEvents_all_sendHeader fresp response.headers e he
      simp
    · simp
    · simp
    · cases hfalse

/-- C7: the body handed to the backend is the bytes read from the client
connection exactly when the upper-cased method is not GET, and absent
(None) for a GET request. -/
theorem C7_body_iff_not_get (freq fresp : List String)
    (command url version : String) (clientHeaders : List (String × String))
    (rfileContent uaValue : String) (response : BackendResponse) :
    ((proxyRequestTrace freq fresp command url version clientHeaders
        rfileContent uaValue response).get? 1 =
      some (Event.backendRequest command.toUpper url
        (forwardHeaders freq clientHeaders)
        (requestBodyFor command rfileContent))) ∧
    (requestBodyFor command rfileContent = some rfileContent ↔
      command.toUpper ≠ "GET") ∧
    (command.toUpper = "GET" → requestBodyFor command rfileContent = none) := by
  refine ⟨by simp [proxyRequestTrace, OVERRIDE_USER_AGENT], ?_, ?_⟩
  · unfold requestBodyFor
    by_cases h : command.toUpper = "GET"
    · simp [h]
    · simp [h]
  · intro h
    simp [requestBodyFor, h]

/-- C8: the integer the handler passes to record_bytes_down is the body
length plus the contribution of only the last non-filtered response header
(or plus the constant 20 when no response header survives the filter): the
trace ends with exactly that recordBytesDown event. -/
theorem C8_bytes_down_last_header_only (freq fresp : List String)
    (command url version : String) (clientHeaders : List (String × String))
    (rfileContent uaValue : String) (response : BackendResponse) :
    proxyRequestTrace freq fresp command url version clientHeaders
        rfileContent uaValue response =
      (Event.recordBytesUp (2 + url.length + command.toUpper.length +
          version.length + approxRequestLenHeaders clientHeaders +
          (match requestBodyFor command rfileContent with
           | some b => b.length
           | none => 0)) ::
        Event.backendRequest command.toUpper url
          (forwardHeaders freq clientHeaders)
          (requestBodyFor command rfileContent) ::
        Event.sendResponse response.statusCode ::
        (respHeaderEvents fresp response.headers ++
          [Event.sendHeader "Proxy-Connection" "close", Event.endHeaders,
           Event.writeBody response.content])) ++
      [Event.recordBytesDown (response.content.length +
        (match lastNonFiltered fresp response.headers with
         | some q => q.1.length + q.2.length + 4
         | none => 20))] := by
  simp [proxyRequestTrace, OVERRIDE_USER_AGENT, approxResponseLen_eq_last,
    Nat.add_comm]

end AwsLambdaProxy
